import Mathlib

/-!
# prepare-csv: header builder, record transformer and pipeline driver

A shallow embedding of `cmd/prepare-csv/prepare-csv.go`: the configuration
structs, `makeHeader`, `processRecord` and the part of `main` that runs after
the configuration has been parsed.  Go strings are byte sequences; the three
ways a call can end (a returned row, `os.Exit(1)`, a run-time panic) are an
`Except` value; the csv reader and writer are collaborators passed in as
functions.
-/

set_option autoImplicit false

namespace PrepareCsv

/-! ## Strings -/

/-- A Go `string`: an immutable sequence of bytes. -/
abbrev GoString := List UInt8

/-- The UTF-8 bytes of a string literal. -/
def str (s : String) : GoString := s.toUTF8.data.toList

/-- Go's `strings.Replace(s, old, new, -1)` for a non-empty `old`: scan `s` from the left;
where `old` starts at the current position, emit `new` and jump over the occurrence
(so occurrences are the leftmost non-overlapping ones); otherwise copy one byte.
The first argument counts the bytes of an occurrence that are still to be jumped over.
`processRecord` calls it only with a non-empty `old`; the empty case, where Go inserts
`new` around every rune, is not covered by this definition. -/
def replaceFrom (old new : GoString) : Nat → GoString → GoString
  | _, [] => []
  | skip + 1, _ :: cs => replaceFrom old new skip cs
  | 0, c :: cs =>
    if old.isPrefixOf (c :: cs) then new ++ replaceFrom old new (old.length - 1) cs
    else c :: replaceFrom old new 0 cs

/-- The call `strings.Replace(s, old, new, -1)`. -/
def stringsReplace (s old new : GoString) : GoString := replaceFrom old new 0 s

/-! ## Configuration model (lines 16-35) -/

/-- The struct `Column`. -/
structure Column where
  From : Int
  Discard : Bool
  Title : GoString
  SplitBy : GoString
  Filters : List GoString
deriving DecidableEq

/-- The struct `NewColumn`. -/
structure NewColumn where
  Title : GoString
  Generator : GoString
deriving DecidableEq

/-- The struct `config`. -/
structure config where
  InputSeparator : GoString
  OutputSeparator : GoString
  SplitSeparator : GoString
  Columns : List Column
  NewColumns : List NewColumn
deriving DecidableEq

/-- Modelled from the spec: the package `filter` is imported by `prepare-csv.go` but is not
among the sources.  Its table `filter.Filters` is "a fixed mapping from filter name to a pure
single-string-to-string transformation"; a lookup of an absent name is `none`. -/
abbrev FilterRegistry := GoString → Option (GoString → GoString)

/-- Modelled from the spec: the package `generator` is imported by `prepare-csv.go` but is not
among the sources.  Its table `generator.Generators` is "a fixed mapping from generator name
to a pure function from a full record to a single output string". -/
abbrev GeneratorRegistry := GoString → Option (List GoString → GoString)

/-! ## makeHeader (lines 37-50) -/

/-- The function `makeHeader`: two `range` loops appending to `target`. -/
def makeHeader (cols : List Column) (new_cols : List NewColumn) : List GoString :=
  let target : List GoString := []
  let target := cols.foldl (fun target e => if !e.Discard then target ++ [e.Title] else target) target
  let target := new_cols.foldl (fun target e => target ++ [e.Title]) target
  target

/-! ## processRecord (lines 57-118) -/

/-- The ways `processRecord` ends without returning a row. -/
inductive Abort where
  /-- Lines 82-88: the filter name is not in `filter.Filters`; `os.Exit(1)`. -/
  | unknownFilter (f : GoString)
  /-- Lines 106-112: the generator name is not in `generator.Generators`; `os.Exit(1)`. -/
  | unknownGenerator (g : NewColumn)
  /-- Line 66: `record[e.From]` with `e.From` outside `0 ..< len(record)`; a run-time panic. -/
  | indexOutOfRange (index : Int) (length : Nat)
deriving DecidableEq

/-- The exit status of the process: 1 from `os.Exit(1)`, 2 from an unrecovered panic. -/
def Abort.exitStatus : Abort → Nat
  | .unknownFilter _ => 1
  | .unknownGenerator _ => 1
  | .indexOutOfRange _ _ => 2

/-- Go's index expression `record[i]` for an `int` index: `none` is the run-time panic. -/
def goIndex (record : List GoString) (i : Int) : Option GoString :=
  if 0 ≤ i then record[i.toNat]? else none

/-- Lines 75-90: the loop over `e.Filters`, updating `s`. -/
def filterLoop (Filters : FilterRegistry) : List GoString → GoString → Except Abort GoString
  | [], s => .ok s
  | f :: fs, s =>
    match Filters f with
    | some fn => filterLoop Filters fs (fn s)
    | none => .error (.unknownFilter f)

/-- Lines 60-95: the loop over `cols`, appending to `target`. -/
def columnLoop (Filters : FilterRegistry) (record : List GoString) (splitter : GoString) :
    List Column → List GoString → Except Abort (List GoString)
  | [], target => .ok target
  | e :: es, target =>
    if e.Discard then columnLoop Filters record splitter es target
    else
      match goIndex record e.From with
      | none => .error (.indexOutOfRange e.From record.length)
      | some s =>
        let s := if e.SplitBy ≠ [] then stringsReplace s e.SplitBy splitter else s
        match (if e.Filters.length ≠ 0 then filterLoop Filters e.Filters s else .ok s) with
        | .error a => .error a
        | .ok s => columnLoop Filters record splitter es (target ++ [s])

/-- Lines 98-115: the loop over `new_cols`, appending to `target`. -/
def generatorLoop (Generators : GeneratorRegistry) (record : List GoString) :
    List NewColumn → List GoString → Except Abort (List GoString)
  | [], target => .ok target
  | g :: gs, target =>
    match Generators g.Generator with
    | some fn => generatorLoop Generators record gs (target ++ [fn record])
    | none => .error (.unknownGenerator g)

/-- The function `processRecord`. -/
def processRecord (Filters : FilterRegistry) (Generators : GeneratorRegistry)
    (record : List GoString) (cols : List Column) (new_cols : List NewColumn)
    (splitter : GoString) : Except Abort (List GoString) :=
  match columnLoop Filters record splitter cols [] with
  | .error a => .error a
  | .ok target =>
    if new_cols.length ≠ 0 then generatorLoop Generators record new_cols target
    else .ok target

/-! ## main (lines 141-188) -/

/-- The csv reader and writer, which `main` only configures and calls. -/
structure Csv where
  /-- The call `r.ReadAll()` on the input file, for a reader whose `Comma` is the given rune;
  `none` is a returned error. -/
  readAll : Nat → Option (List (List GoString))
  /-- The call `w.Write(row)`, for a writer whose `Comma` is the given rune and which has
  accepted the given rows so far; `false` is a returned error. -/
  write : Nat → List (List GoString) → List GoString → Bool

/-- What a run leaves behind: the rows that `w.Write` accepted, in order, the exit status of
the process, and whether `w.Flush()` of line 188 was reached. -/
structure Run where
  written : List (List GoString)
  status : Nat
  flushed : Bool
deriving DecidableEq

/-- Lines 142-150: the defaults of the three separators. -/
def setDefaults (conf : config) : config :=
  { conf with
    InputSeparator := if conf.InputSeparator = [] then str ";" else conf.InputSeparator
    OutputSeparator := if conf.OutputSeparator = [] then str ";" else conf.OutputSeparator
    SplitSeparator := if conf.SplitSeparator = [] then str ";" else conf.SplitSeparator }

/-- The expression `rune(s[0])` of lines 163 and 173: the first byte as a code point;
`none` is the panic of indexing an empty string. -/
def firstByteRune (s : GoString) : Option Nat :=
  match s with
  | [] => none
  | b :: _ => some b.toNat

/-- Lines 181-186: the loop over `records`, then `w.Flush()` and a normal return. -/
def recordLoop (Filters : FilterRegistry) (Generators : GeneratorRegistry)
    (write : List (List GoString) → List GoString → Bool) (conf : config) :
    List (List GoString) → List (List GoString) → Run
  | [], written => ⟨written, 0, true⟩
  | e :: es, written =>
    match processRecord Filters Generators e conf.Columns conf.NewColumns conf.SplitSeparator with
    | .error a => ⟨written, a.exitStatus, false⟩
    | .ok row =>
      if write written row then recordLoop Filters Generators write conf es (written ++ [row])
      else ⟨written, 1, false⟩

/-- The function `main` from line 141 on, for a configuration that was read and parsed. -/
def main (Filters : FilterRegistry) (Generators : GeneratorRegistry) (csv : Csv)
    (conf : config) : Run :=
  let conf := setDefaults conf
  match firstByteRune conf.InputSeparator with
  | none => ⟨[], 2, false⟩
  | some rComma =>
    match csv.readAll rComma with
    | none => ⟨[], 1, false⟩
    | some records =>
      match firstByteRune conf.OutputSeparator with
      | none => ⟨[], 2, false⟩
      | some wComma =>
        let header := makeHeader conf.Columns conf.NewColumns
        if csv.write wComma [] header then
          recordLoop Filters Generators (csv.write wComma) conf records [header]
        else ⟨[], 1, false⟩


/-! ## Auxiliary definitions used in the statements -/

/-- The columns that are not discarded, in declared order. -/
def kept (cols : List Column) : List Column := cols.filter (fun e => !e.Discard)

/-- The value of a field after the `split-by` substitution of lines 69-71. -/
def substituted (e : Column) (raw splitter : GoString) : GoString :=
  if e.SplitBy ≠ [] then stringsReplace raw e.SplitBy splitter else raw

/-- One output value of the column loop: the field is in range and the filter loop ends
normally with `v`. -/
def ColumnValue (Filters : FilterRegistry) (record : List GoString) (splitter : GoString)
    (e : Column) (v : GoString) : Prop :=
  ∃ raw, goIndex record e.From = some raw ∧
    filterLoop Filters e.Filters (substituted e raw splitter) = .ok v

/-- One output value of the generator loop. -/
def GeneratedValue (Generators : GeneratorRegistry) (record : List GoString)
    (g : NewColumn) (v : GoString) : Prop :=
  ∃ fn, Generators g.Generator = some fn ∧ v = fn record

/-! ## Concrete data: the scenario of the specification and small configurations -/

/-- Equality of results is decidable, so that a run on concrete data can be evaluated. -/
instance instDecidableEqExcept {ε α : Type} [DecidableEq ε] [DecidableEq α] :
    DecidableEq (Except ε α)
  | .ok a, .ok b =>
    if h : a = b then isTrue (by rw [h]) else isFalse (fun h2 => h (Except.ok.inj h2))
  | .error a, .error b =>
    if h : a = b then isTrue (by rw [h]) else isFalse (fun h2 => h (Except.error.inj h2))
  | .ok _, .error _ => isFalse (fun h => by cases h)
  | .error _, .ok _ => isFalse (fun h => by cases h)

/-- White space for a trimming filter: space, tab, line feed, vertical tab, form feed,
carriage return. -/
def isSpace (b : UInt8) : Bool := b == 32 || (9 ≤ b && b ≤ 13)

/-- Modelled from the spec: the filter `trim` of the scenario in section 8, of the package
`filter` that is not among the sources; it "strips whitespace" around the value. -/
def trim (s : GoString) : GoString :=
  ((s.dropWhile isSpace).reverse.dropWhile isSpace).reverse

/-- Modelled from the spec: the generator `joinAll` of the scenario in section 8, of the
package `generator` that is not among the sources; it "joins fields with `;`". -/
def joinAll (record : List GoString) : GoString := (str ";").intercalate record

/-- The filter registry of the scenario: `trim` and nothing else. -/
def scenarioFilters : FilterRegistry :=
  fun name => if name = str "trim" then some trim else none

/-- The generator registry of the scenario: `joinAll` and nothing else. -/
def scenarioGenerators : GeneratorRegistry :=
  fun name => if name = str "joinAll" then some joinAll else none

/-- The first column of the scenario. -/
def nameColumn : Column :=
  { From := 0, Discard := false, Title := str "Name", SplitBy := [], Filters := [] }

/-- The second column of the scenario, which is discarded. -/
def discardedColumn : Column :=
  { From := 1, Discard := true, Title := str "x", SplitBy := [], Filters := [] }

/-- The third column of the scenario. -/
def yearColumn : Column :=
  { From := 2, Discard := false, Title := str "Year", SplitBy := [], Filters := [str "trim"] }

/-- The columns of the scenario. -/
def scenarioColumns : List Column := [nameColumn, discardedColumn, yearColumn]

/-- The new column of the scenario. -/
def fullColumn : NewColumn := { Title := str "Full", Generator := str "joinAll" }

/-- The new columns of the scenario. -/
def scenarioNewColumns : List NewColumn := [fullColumn]

/-- The input record of the scenario. -/
def scenarioRecord : List GoString := [str "Ada", str "ignored", str " 1990 "]

/-- A reader that yields the given records and a writer that accepts every row. -/
def csvGiving (records : List (List GoString)) : Csv :=
  { readAll := fun _ => some records, write := fun _ _ _ => true }

/-- A configuration whose only column names a filter that `scenarioFilters` does not hold. -/
def unknownFilterConfig : config :=
  { InputSeparator := [], OutputSeparator := [], SplitSeparator := [],
    Columns := [ { From := 0, Discard := false, Title := str "Name", SplitBy := [],
                   Filters := [str "nosuch"] } ],
    NewColumns := [] }

/-- A configuration with a split separator of two characters. -/
def wideSplitConfig : config :=
  { InputSeparator := str ",", OutputSeparator := [], SplitSeparator := str ", ",
    Columns := [ { From := 0, Discard := false, Title := str "Tags", SplitBy := str "|",
                   Filters := [] } ],
    NewColumns := [] }

/-- A separator string is empty or starts with an ASCII character (a byte below 128). -/
def startsAscii (s : GoString) : Bool :=
  match s with
  | [] => true
  | b :: _ => decide (b.toNat < 128)

/-- A column that reads the second field, is split on `|` and passed through `trim`. -/
def tagsColumn : Column :=
  { From := 1, Discard := false, Title := str "Tags", SplitBy := str "|",
    Filters := [str "trim"] }

/-- A record of two fields, the second with an inner `|` and surrounding spaces. -/
def tagsRecord : List GoString := [str "id-7", str " a|b "]

/-- A discarded column whose `From` is outside the scenario record and whose filter is not
registered. -/
def strayColumn : Column :=
  { From := 7, Discard := true, Title := str "x", SplitBy := str "|",
    Filters := [str "nosuch"] }

/-- A reader that yields the given records only when its delimiter is `rc` and fails
otherwise, and a writer that accepts a row only when its delimiter is `wc`. -/
def csvStrict (rc wc : Nat) (records : List (List GoString)) : Csv :=
  { readAll := fun comma => if comma = rc then some records else none,
    write := fun comma _ _ => decide (comma = wc) }

/-- A configuration without separators, whose only column is split on `|`. -/
def defaultSeparatorsConfig : config :=
  { InputSeparator := [], OutputSeparator := [], SplitSeparator := [],
    Columns := [ { From := 0, Discard := false, Title := str "Tags", SplitBy := str "|",
                   Filters := [] } ],
    NewColumns := [] }

/-! ## Lemmas -/

theorem foldl_titles_cols (cols : List Column) (acc : List GoString) :
    cols.foldl (fun target e => if !e.Discard then target ++ [e.Title] else target) acc
      = acc ++ (kept cols).map (fun e => e.Title) := by
  induction cols generalizing acc with
  | nil => simp [kept]
  | cons e es ih =>
    cases h : e.Discard
    · simp only [List.foldl_cons, h, Bool.not_false, if_true]
      rw [ih]
      simp [kept, h]
    · simp only [List.foldl_cons, h, Bool.not_true, Bool.false_eq_true, if_false]
      rw [ih]
      simp [kept, h]

theorem foldl_titles_new (new_cols : List NewColumn) (acc : List GoString) :
    new_cols.foldl (fun target e => target ++ [e.Title]) acc
      = acc ++ new_cols.map (fun e => e.Title) := by
  induction new_cols generalizing acc with
  | nil => simp
  | cons e es ih => simp [List.foldl_cons, ih]

theorem makeHeader_eq (cols : List Column) (new_cols : List NewColumn) :
    makeHeader cols new_cols
      = (kept cols).map (fun e => e.Title) ++ new_cols.map (fun e => e.Title) := by
  unfold makeHeader
  simp only [foldl_titles_cols, foldl_titles_new, List.nil_append]

theorem filterLoop_ok_iff (Filters : FilterRegistry) (fs : List GoString) (s v : GoString) :
    filterLoop Filters fs s = .ok v ↔
      ∃ fns : List (GoString → GoString),
        fs.map Filters = fns.map some ∧ v = fns.foldl (fun acc fn => fn acc) s := by
  induction fs generalizing s with
  | nil =>
    constructor
    · intro h
      refine ⟨[], rfl, ?_⟩
      simpa [filterLoop] using h.symm
    · rintro ⟨fns, hm, hv⟩
      have : fns = [] := by simpa using hm.symm
      subst this
      simp [filterLoop, hv]
  | cons f fs ih =>
    constructor
    · intro h
      unfold filterLoop at h
      cases hf : Filters f with
      | none => simp [hf] at h
      | some fn =>
        simp only [hf] at h
        obtain ⟨fns, hm, hv⟩ := (ih (fn s)).1 h
        exact ⟨fn :: fns, by simp [hf, hm], by simpa using hv⟩
    · rintro ⟨fns, hm, hv⟩
      cases fns with
      | nil => simp at hm
      | cons fn fns =>
        simp only [List.map_cons, List.cons.injEq] at hm
        unfold filterLoop
        simp only [hm.1]
        exact (ih (fn s)).2 ⟨fns, hm.2, by simpa using hv⟩

theorem filterLoop_error (Filters : FilterRegistry) (fs : List GoString) (s : GoString)
    (a : Abort) (h : filterLoop Filters fs s = .error a) :
    ∃ f ∈ fs, Filters f = none ∧ a = .unknownFilter f := by
  induction fs generalizing s with
  | nil => simp [filterLoop] at h
  | cons f fs ih =>
    unfold filterLoop at h
    cases hf : Filters f with
    | none =>
      simp only [hf, Except.error.injEq] at h
      exact ⟨f, by simp, hf, h.symm⟩
    | some fn =>
      simp only [hf] at h
      obtain ⟨g, hg, hn, ha⟩ := ih (fn s) h
      exact ⟨g, by simp [hg], hn, ha⟩

theorem filterLoop_ok_registered (Filters : FilterRegistry) (fs : List GoString)
    (s v : GoString) (h : filterLoop Filters fs s = .ok v) :
    ∀ f ∈ fs, Filters f ≠ none := by
  induction fs generalizing s with
  | nil => simp
  | cons f fs ih =>
    unfold filterLoop at h
    cases hf : Filters f with
    | none => simp [hf] at h
    | some fn =>
      simp only [hf] at h
      intro g hg
      rcases List.mem_cons.1 hg with rfl | hg
      · simp [hf]
      · exact ih (fn s) h g hg

theorem filterLoop_guard (Filters : FilterRegistry) (fs : List GoString) (s : GoString) :
    (if fs.length ≠ 0 then filterLoop Filters fs s else .ok s) = filterLoop Filters fs s := by
  cases fs with
  | nil => rfl
  | cons f fs => simp

theorem generatorLoop_guard (Generators : GeneratorRegistry) (record : List GoString)
    (gs : List NewColumn) (target : List GoString) :
    (if gs.length ≠ 0 then generatorLoop Generators record gs target else .ok target)
      = generatorLoop Generators record gs target := by
  cases gs with
  | nil => rfl
  | cons g gs => simp

theorem columnLoop_ok_iff (Filters : FilterRegistry) (record : List GoString)
    (splitter : GoString) (cols : List Column) (target out : List GoString) :
    columnLoop Filters record splitter cols target = .ok out ↔
      ∃ vals, out = target ++ vals ∧
        List.Forall₂ (ColumnValue Filters record splitter) (kept cols) vals := by
  induction cols generalizing target with
  | nil => 
    simp only [columnLoop, kept, List.filter_nil, List.forall₂_nil_left_iff, Except.ok.injEq]
    constructor
    · intro h; exact ⟨[], by simp [h], rfl⟩
    · rintro ⟨vals, h, rfl⟩; simp [h]
  | cons e es ih =>
    unfold columnLoop
    cases hd : e.Discard with
    | true => simpa [kept, hd] using ih target
    | false =>
      have hk : kept (e :: es) = e :: kept es := by simp [kept, hd]
      simp only [Bool.false_eq_true, if_false, hk]
      cases hi : goIndex record e.From with
      | none =>
        constructor
        · intro h; cases h
        · rintro ⟨vals, -, hv⟩
          cases hv with
          | cons h _ =>
            obtain ⟨raw, hraw, -⟩ := h
            simp [hi] at hraw
      | some raw =>
        have hs : (if e.SplitBy ≠ [] then stringsReplace raw e.SplitBy splitter else raw)
            = substituted e raw splitter := rfl
        simp only [hs, filterLoop_guard]
        cases hf : filterLoop Filters e.Filters (substituted e raw splitter) with
        | error a =>
          constructor
          · intro h; cases h
          · rintro ⟨vals, -, hv⟩
            cases hv with
            | cons h _ =>
              obtain ⟨raw2, hraw, hfl⟩ := h
              rw [hi, Option.some.injEq] at hraw
              subst hraw
              rw [hf] at hfl
              cases hfl
        | ok v =>
          simp only [ih]
          constructor
          · rintro ⟨vals, rfl, hv⟩
            exact ⟨v :: vals, by simp, List.Forall₂.cons ⟨raw, hi, hf⟩ hv⟩
          · rintro ⟨vals, rfl, hv⟩
            cases hv with
            | cons h ht =>
              obtain ⟨raw2, hraw, hfl⟩ := h
              rw [hi, Option.some.injEq] at hraw
              subst hraw
              rw [hf, Except.ok.injEq] at hfl
              subst hfl
              exact ⟨_, by simp, ht⟩

theorem columnLoop_error (Filters : FilterRegistry) (record : List GoString)
    (splitter : GoString) (cols : List Column) (target : List GoString) (a : Abort)
    (h : columnLoop Filters record splitter cols target = .error a) :
    (∃ e ∈ kept cols, goIndex record e.From = none ∧
        a = .indexOutOfRange e.From record.length) ∨
      (∃ e ∈ kept cols, ∃ f ∈ e.Filters, Filters f = none ∧ a = .unknownFilter f) := by
  induction cols generalizing target with
  | nil => simp [columnLoop] at h
  | cons e es ih =>
    unfold columnLoop at h
    cases hd : e.Discard with
    | true =>
      simp only [hd, if_true] at h
      have hk : kept (e :: es) = kept es := by simp [kept, hd]
      rw [hk]
      exact ih target h
    | false =>
      have hk : kept (e :: es) = e :: kept es := by simp [kept, hd]
      rw [hk]
      simp only [hd, Bool.false_eq_true, if_false] at h
      cases hi : goIndex record e.From with
      | none =>
        simp only [hi, Except.error.injEq] at h
        exact Or.inl ⟨e, by simp, hi, h.symm⟩
      | some raw =>
        simp only [hi] at h
        have hs : (if e.SplitBy ≠ [] then stringsReplace raw e.SplitBy splitter else raw)
            = substituted e raw splitter := rfl
        simp only [hs, filterLoop_guard] at h
        cases hf : filterLoop Filters e.Filters (substituted e raw splitter) with
        | error b =>
          simp only [hf, Except.error.injEq] at h
          subst h
          obtain ⟨f, hfm, hn, hb⟩ := filterLoop_error Filters _ _ _ hf
          exact Or.inr ⟨e, by simp, f, hfm, hn, hb⟩
        | ok v =>
          simp only [hf] at h
          rcases ih _ h with ⟨e2, he, hx⟩ | ⟨e2, he, hx⟩
          · exact Or.inl ⟨e2, by simp [he], hx⟩
          · exact Or.inr ⟨e2, by simp [he], hx⟩

theorem generatorLoop_ok_iff (Generators : GeneratorRegistry) (record : List GoString)
    (gs : List NewColumn) (target out : List GoString) :
    generatorLoop Generators record gs target = .ok out ↔
      ∃ vals, out = target ++ vals ∧
        List.Forall₂ (GeneratedValue Generators record) gs vals := by
  induction gs generalizing target with
  | nil =>
    simp only [generatorLoop, List.forall₂_nil_left_iff, Except.ok.injEq]
    constructor
    · intro h; exact ⟨[], by simp [h], rfl⟩
    · rintro ⟨vals, h, rfl⟩; simp [h]
  | cons g gs ih =>
    unfold generatorLoop
    cases hg : Generators g.Generator with
    | none =>
      constructor
      · intro h; cases h
      · rintro ⟨vals, -, hv⟩
        cases hv with
        | cons h _ =>
          obtain ⟨fn, hfn, -⟩ := h
          simp [hg] at hfn
    | some fn =>
      simp only [ih]
      constructor
      · rintro ⟨vals, rfl, hv⟩
        exact ⟨fn record :: vals, by simp, List.Forall₂.cons ⟨fn, hg, rfl⟩ hv⟩
      · rintro ⟨vals, rfl, hv⟩
        cases hv with
        | cons h ht =>
          obtain ⟨fn2, hfn, rfl⟩ := h
          rw [hg, Option.some.injEq] at hfn
          subst hfn
          exact ⟨_, by simp, ht⟩

theorem generatorLoop_error (Generators : GeneratorRegistry) (record : List GoString)
    (gs : List NewColumn) (target : List GoString) (a : Abort)
    (h : generatorLoop Generators record gs target = .error a) :
    ∃ g ∈ gs, Generators g.Generator = none ∧ a = .unknownGenerator g := by
  induction gs generalizing target with
  | nil => simp [generatorLoop] at h
  | cons g gs ih =>
    unfold generatorLoop at h
    cases hg : Generators g.Generator with
    | none =>
      simp only [hg, Except.error.injEq] at h
      exact ⟨g, by simp, hg, h.symm⟩
    | some fn =>
      simp only [hg] at h
      obtain ⟨g2, hm, hx⟩ := ih _ h
      exact ⟨g2, by simp [hm], hx⟩

theorem processRecord_ok_iff (Filters : FilterRegistry) (Generators : GeneratorRegistry)
    (record : List GoString) (cols : List Column) (new_cols : List NewColumn)
    (splitter : GoString) (row : List GoString) :
    processRecord Filters Generators record cols new_cols splitter = .ok row ↔
      ∃ vals gens, row = vals ++ gens ∧
        List.Forall₂ (ColumnValue Filters record splitter) (kept cols) vals ∧
        List.Forall₂ (GeneratedValue Generators record) new_cols gens := by
  unfold processRecord
  simp only [generatorLoop_guard]
  cases hc : columnLoop Filters record splitter cols [] with
  | error a =>
    constructor
    · intro h; cases h
    · rintro ⟨vals, gens, -, hv, -⟩
      have := (columnLoop_ok_iff Filters record splitter cols [] vals).2 ⟨vals, by simp, hv⟩
      rw [hc] at this
      cases this
  | ok target =>
    obtain ⟨vals, hvals, hv⟩ := (columnLoop_ok_iff _ _ _ _ _ _).1 hc
    simp only [List.nil_append] at hvals
    subst hvals
    simp only [generatorLoop_ok_iff]
    constructor
    · rintro ⟨gens, rfl, hg⟩
      exact ⟨target, gens, rfl, hv, hg⟩
    · rintro ⟨vals2, gens, rfl, hv2, hg⟩
      have h2 := (columnLoop_ok_iff Filters record splitter cols [] vals2).2 ⟨vals2, by simp, hv2⟩
      rw [hc, Except.ok.injEq] at h2
      subst h2
      exact ⟨gens, rfl, hg⟩

theorem processRecord_error (Filters : FilterRegistry) (Generators : GeneratorRegistry)
    (record : List GoString) (cols : List Column) (new_cols : List NewColumn)
    (splitter : GoString) (a : Abort)
    (h : processRecord Filters Generators record cols new_cols splitter = .error a) :
    (∃ e ∈ kept cols, goIndex record e.From = none ∧
        a = .indexOutOfRange e.From record.length) ∨
      (∃ e ∈ kept cols, ∃ f ∈ e.Filters, Filters f = none ∧ a = .unknownFilter f) ∨
      (∃ g ∈ new_cols, Generators g.Generator = none ∧ a = .unknownGenerator g) := by
  unfold processRecord at h
  simp only [generatorLoop_guard] at h
  cases hc : columnLoop Filters record splitter cols [] with
  | error b =>
    simp only [hc, Except.error.injEq] at h
    subst h
    rcases columnLoop_error _ _ _ _ _ _ hc with hx | hx
    · exact Or.inl hx
    · exact Or.inr (Or.inl hx)
  | ok target =>
    simp only [hc] at h
    exact Or.inr (Or.inr (generatorLoop_error _ _ _ _ _ h))

theorem forall₂_getElem? {α β : Type} {R : α → β → Prop} {l₁ : List α} {l₂ : List β}
    (h : List.Forall₂ R l₁ l₂) (i : Nat) (a : α) (ha : l₁[i]? = some a) :
    ∃ b, l₂[i]? = some b ∧ R a b := by
  induction h generalizing i with
  | nil => simp at ha
  | cons hr _ ih =>
    cases i with
    | zero =>
      simp only [List.getElem?_cons_zero, Option.some.injEq] at ha
      subst ha
      exact ⟨_, by simp, hr⟩
    | succ i =>
      simp only [List.getElem?_cons_succ] at ha
      simpa using ih i ha

theorem forall₂_mem_left {α β : Type} {R : α → β → Prop} {l₁ : List α} {l₂ : List β}
    (h : List.Forall₂ R l₁ l₂) (a : α) (ha : a ∈ l₁) : ∃ b, R a b := by
  induction h with
  | nil => simp at ha
  | cons hr _ ih =>
    rcases List.mem_cons.1 ha with rfl | ha
    · exact ⟨_, hr⟩
    · exact ih ha

theorem goIndex_inRange (record : List GoString) (i : Int) (h0 : 0 ≤ i)
    (h1 : i < record.length) : ∃ raw, goIndex record i = some raw := by
  have hlt : i.toNat < record.length := by omega
  exact ⟨record[i.toNat], by simp [goIndex, h0, List.getElem?_eq_getElem hlt]⟩

theorem columnLoop_kept (Filters : FilterRegistry) (record : List GoString)
    (splitter : GoString) (cols : List Column) (target : List GoString) :
    columnLoop Filters record splitter cols target
      = columnLoop Filters record splitter (kept cols) target := by
  induction cols generalizing target with
  | nil => rfl
  | cons e es ih =>
    cases hd : e.Discard with
    | true =>
      have hk : kept (e :: es) = kept es := by simp [kept, hd]
      rw [hk, ← ih]
      conv => lhs; unfold columnLoop
      simp [hd]
    | false =>
      have hk : kept (e :: es) = e :: kept es := by simp [kept, hd]
      rw [hk]
      conv => lhs; unfold columnLoop
      conv => rhs; unfold columnLoop
      simp only [hd, Bool.false_eq_true, if_false]
      cases goIndex record e.From with
      | none => rfl
      | some raw =>
        simp only [filterLoop_guard]
        cases filterLoop Filters e.Filters
          (if e.SplitBy ≠ [] then stringsReplace raw e.SplitBy splitter else raw) with
        | error a => rfl
        | ok v => exact ih _

theorem row_getElem?_column {vals gens : List GoString} {i : Nat} {v : GoString}
    (h : vals[i]? = some v) : (vals ++ gens)[i]? = some v := by
  have hlt : i < vals.length := by
    by_contra hc
    rw [List.getElem?_eq_none (by omega)] at h
    cases h
  rw [List.getElem?_append_left hlt]
  exact h

theorem row_getElem?_generated {vals gens : List GoString} {n j : Nat}
    (hn : vals.length = n) : (vals ++ gens)[n + j]? = gens[j]? := by
  subst hn
  rw [List.getElem?_append_right (by omega)]
  simp

theorem processRecord_ok_registered (Filters : FilterRegistry)
    (Generators : GeneratorRegistry) (record : List GoString) (cols : List Column)
    (new_cols : List NewColumn) (splitter : GoString) (row : List GoString)
    (h : processRecord Filters Generators record cols new_cols splitter = .ok row) :
    (∀ e ∈ cols, e.Discard = false → ∀ f ∈ e.Filters, Filters f ≠ none) ∧
      (∀ g ∈ new_cols, Generators g.Generator ≠ none) := by
  obtain ⟨vals, gens, -, hv, hg⟩ := (processRecord_ok_iff _ _ _ _ _ _ _).1 h
  constructor
  · intro e he hd f hf
    have hk : e ∈ kept cols := by simp [kept, List.mem_filter, he, hd]
    obtain ⟨v, raw, -, hfl⟩ := forall₂_mem_left hv e hk
    exact filterLoop_ok_registered _ _ _ _ hfl f hf
  · intro g hgm
    obtain ⟨v, fn, hfn, -⟩ := forall₂_mem_left hg g hgm
    simp [hfn]

theorem mem_kept {cols : List Column} {e : Column} (h : e ∈ kept cols) :
    e ∈ cols ∧ e.Discard = false := by
  simpa [kept, List.mem_filter] using h

theorem exitStatus_ne_zero (a : Abort) : a.exitStatus ≠ 0 := by
  cases a <;> simp [Abort.exitStatus]

theorem setDefaults_Columns (conf : config) : (setDefaults conf).Columns = conf.Columns := by
  rfl

theorem setDefaults_NewColumns (conf : config) :
    (setDefaults conf).NewColumns = conf.NewColumns := by
  rfl

theorem setDefaults_InputSeparator (conf : config) :
    (setDefaults conf).InputSeparator
      = if conf.InputSeparator = [] then str ";" else conf.InputSeparator := by
  rfl

theorem setDefaults_OutputSeparator (conf : config) :
    (setDefaults conf).OutputSeparator
      = if conf.OutputSeparator = [] then str ";" else conf.OutputSeparator := by
  rfl

theorem setDefaults_SplitSeparator (conf : config) :
    (setDefaults conf).SplitSeparator
      = if conf.SplitSeparator = [] then str ";" else conf.SplitSeparator := by
  rfl

theorem str_semicolon : str ";" = [59] := by decide

theorem firstByteRune_default (s : GoString) :
    firstByteRune (if s = [] then str ";" else s)
      = some (match s with
          | [] => 59
          | b :: _ => b.toNat) := by
  cases s with
  | nil => simp [str_semicolon, firstByteRune]
  | cons b rest => simp [firstByteRune]

theorem scenario_row (splitter : GoString) :
    processRecord scenarioFilters scenarioGenerators scenarioRecord scenarioColumns
        scenarioNewColumns splitter
      = .ok [str "Ada", str "1990", str "Ada;ignored; 1990 "] := by
  rfl

theorem recordLoop_written (Filters : FilterRegistry) (Generators : GeneratorRegistry)
    (write : List (List GoString) → List GoString → Bool) (conf : config)
    (records : List (List GoString)) (written : List (List GoString)) :
    ∃ rows, (recordLoop Filters Generators write conf records written).written
        = written ++ rows ∧
      rows <+: records.filterMap (fun e =>
        (processRecord Filters Generators e conf.Columns conf.NewColumns
          conf.SplitSeparator).toOption) := by
  induction records generalizing written with
  | nil => exact ⟨[], by simp [recordLoop], ⟨[], rfl⟩⟩
  | cons e es ih =>
    unfold recordLoop
    cases hp : processRecord Filters Generators e conf.Columns conf.NewColumns
        conf.SplitSeparator with
    | error a => exact ⟨[], by simp, ⟨_, rfl⟩⟩
    | ok row =>
      simp only [List.filterMap_cons, hp, Except.toOption]
      cases hw : write written row with
      | false => exact ⟨[], by simp, ⟨_, rfl⟩⟩
      | true =>
        obtain ⟨rows, hrows, t, ht⟩ := ih (written ++ [row])
        refine ⟨row :: rows, by simp [hrows], ⟨t, ?_⟩⟩
        rw [List.cons_append]
        exact congrArg (List.cons row) ht

theorem processRecord_unknown_aborts (Filters : FilterRegistry)
    (Generators : GeneratorRegistry) (record : List GoString) (cols : List Column)
    (new_cols : List NewColumn) (splitter : GoString)
    (hU : (∃ e ∈ cols, e.Discard = false ∧ ∃ f ∈ e.Filters, Filters f = none) ∨
      (∃ g ∈ new_cols, Generators g.Generator = none)) :
    ∃ a, processRecord Filters Generators record cols new_cols splitter = .error a := by
  cases hp : processRecord Filters Generators record cols new_cols splitter with
  | error a => exact ⟨a, rfl⟩
  | ok row =>
    obtain ⟨h1, h2⟩ := processRecord_ok_registered _ _ _ _ _ _ _ hp
    rcases hU with ⟨e, he, hd, f, hf, hn⟩ | ⟨g, hg, hn⟩
    · exact absurd hn (h1 e he hd f hf)
    · exact absurd hn (h2 g hg)

theorem main_after_read (Filters : FilterRegistry) (Generators : GeneratorRegistry)
    (csv : Csv) (conf : config) (rComma : Nat) (records : List (List GoString))
    (hc : firstByteRune (setDefaults conf).InputSeparator = some rComma)
    (hread : csv.readAll rComma = some records) :
    ∃ wComma, firstByteRune (setDefaults conf).OutputSeparator = some wComma ∧
      main Filters Generators csv conf
        = if csv.write wComma [] (makeHeader conf.Columns conf.NewColumns) then
            recordLoop Filters Generators (csv.write wComma) (setDefaults conf) records
              [makeHeader conf.Columns conf.NewColumns]
          else ⟨[], 1, false⟩ := by
  have hw := firstByteRune_default conf.OutputSeparator
  rw [← setDefaults_OutputSeparator] at hw
  refine ⟨_, hw, ?_⟩
  unfold main
  simp only [hc, hread, hw, setDefaults_Columns, setDefaults_NewColumns]

theorem goIndex_some_inRange (record : List GoString) (i : Int) (raw : GoString)
    (h : goIndex record i = some raw) : 0 ≤ i ∧ i < record.length := by
  unfold goIndex at h
  split_ifs at h with h0
  have hlt : i.toNat < record.length := by
    by_contra hc
    rw [List.getElem?_eq_none (by omega)] at h
    cases h
  exact ⟨h0, by omega⟩

theorem processRecord_returns_iff (Filters : FilterRegistry) (Generators : GeneratorRegistry)
    (record : List GoString) (cols : List Column) (new_cols : List NewColumn)
    (splitter : GoString) :
    (∃ row, processRecord Filters Generators record cols new_cols splitter = .ok row) ↔
      ((∀ e ∈ cols, e.Discard = false → 0 ≤ e.From ∧ e.From < record.length) ∧
        (∀ e ∈ cols, e.Discard = false → ∀ f ∈ e.Filters, Filters f ≠ none) ∧
        (∀ g ∈ new_cols, Generators g.Generator ≠ none)) := by
  constructor
  · rintro ⟨row, h⟩
    obtain ⟨h1, h2⟩ := processRecord_ok_registered _ _ _ _ _ _ _ h
    refine ⟨?_, h1, h2⟩
    intro e he hd
    obtain ⟨vals, gens, -, hv, -⟩ := (processRecord_ok_iff _ _ _ _ _ _ _).1 h
    have hk : e ∈ kept cols := by simp [kept, List.mem_filter, he, hd]
    obtain ⟨v, raw, hraw, -⟩ := forall₂_mem_left hv e hk
    exact goIndex_some_inRange record e.From raw hraw
  · rintro ⟨hin, hf, hg⟩
    cases hp : processRecord Filters Generators record cols new_cols splitter with
    | ok row => exact ⟨row, rfl⟩
    | error a =>
      rcases processRecord_error _ _ _ _ _ _ _ hp with ⟨e, he, hi, -⟩ | ⟨e, he, f, hfm, hn, -⟩ |
        ⟨g, hgm, hn, -⟩
      · obtain ⟨hm, hd⟩ := mem_kept he
        obtain ⟨h0, h1⟩ := hin e hm hd
        obtain ⟨raw, hraw⟩ := goIndex_inRange record e.From h0 h1
        rw [hi] at hraw
        cases hraw
      · obtain ⟨hm, hd⟩ := mem_kept he
        exact absurd hn (hf e hm hd f hfm)
      · exact absurd hn (hg g hgm)

theorem goIndex_eq_some_iff (record : List GoString) (i : Int) (raw : GoString) :
    goIndex record i = some raw ↔ 0 ≤ i ∧ record[i.toNat]? = some raw := by
  unfold goIndex
  constructor
  · intro h
    split_ifs at h with h0
    exact ⟨h0, h⟩
  · rintro ⟨h0, h⟩
    rw [if_pos h0]
    exact h

theorem recordLoop_all_ok (Filters : FilterRegistry) (Generators : GeneratorRegistry)
    (write : List (List GoString) → List GoString → Bool) (conf : config)
    (records rows : List (List GoString)) (written : List (List GoString))
    (hw : ∀ wr row, write wr row = true)
    (h : List.Forall₂ (fun e row =>
      processRecord Filters Generators e conf.Columns conf.NewColumns conf.SplitSeparator
        = .ok row) records rows) :
    recordLoop Filters Generators write conf records written = ⟨written ++ rows, 0, true⟩ := by
  induction h generalizing written with
  | nil => simp [recordLoop]
  | cons hp _ ih =>
    unfold recordLoop
    rw [hp]
    simp only [hw, if_true]
    rw [ih]
    simp

theorem main_eq (Filters : FilterRegistry) (Generators : GeneratorRegistry) (csv : Csv)
    (conf : config) :
    ∃ r w, firstByteRune (setDefaults conf).InputSeparator = some r ∧
      firstByteRune (setDefaults conf).OutputSeparator = some w ∧
      main Filters Generators csv conf
        = match csv.readAll r with
          | none => ⟨[], 1, false⟩
          | some records =>
            if csv.write w [] (makeHeader conf.Columns conf.NewColumns) then
              recordLoop Filters Generators (csv.write w) (setDefaults conf) records
                [makeHeader conf.Columns conf.NewColumns]
            else ⟨[], 1, false⟩ := by
  have hr := firstByteRune_default conf.InputSeparator
  rw [← setDefaults_InputSeparator] at hr
  have hw := firstByteRune_default conf.OutputSeparator
  rw [← setDefaults_OutputSeparator] at hw
  refine ⟨_, _, hr, hw, ?_⟩
  unfold main
  simp only [hr, hw, setDefaults_Columns, setDefaults_NewColumns]

theorem firstByteRune_startsAscii (s : GoString) (r : Nat) :
    firstByteRune (if s = [] then str ";" else s) = some r →
    startsAscii s = true →
    r < 128 ∧ r = (match s with
      | [] => 59
      | b :: _ => b.toNat) := by
  intro hr hs
  rw [firstByteRune_default, Option.some.injEq] at hr
  cases s with
  | nil =>
    have hr2 : 59 = r := hr
    subst hr2
    exact ⟨by decide, rfl⟩
  | cons b rest =>
    have hb : b.toNat < 128 := by simpa [startsAscii] using hs
    have hr2 : b.toNat = r := hr
    subst hr2
    exact ⟨hb, rfl⟩

theorem replaceFrom_skip (old new : GoString) (k : Nat) (s : GoString) :
    replaceFrom old new k s = replaceFrom old new 0 (s.drop k) := by
  induction k generalizing s with
  | zero => rfl
  | succ k ih =>
    cases s with
    | nil => rfl
    | cons c cs =>
      rw [List.drop_succ_cons, ← ih]
      rfl

theorem replaceFrom_at_occurrence (old new rest : GoString) (h : old ≠ []) :
    replaceFrom old new 0 (old ++ rest) = new ++ replaceFrom old new 0 rest := by
  cases old with
  | nil => exact absurd rfl h
  | cons c os =>
    have hp : (c :: os).isPrefixOf (c :: (os ++ rest)) = true :=
      List.isPrefixOf_iff_prefix.2 ⟨rest, rfl⟩
    rw [List.cons_append]
    conv => lhs; unfold replaceFrom
    rw [if_pos hp, replaceFrom_skip]
    simp

theorem replaceFrom_no_occurrence (old new : GoString) (c : UInt8) (cs : GoString)
    (h : ¬ old <+: c :: cs) :
    replaceFrom old new 0 (c :: cs) = c :: replaceFrom old new 0 cs := by
  have hp : ¬ (old.isPrefixOf (c :: cs) = true) := fun hc => h (List.isPrefixOf_iff_prefix.1 hc)
  conv => lhs; unfold replaceFrom
  rw [if_neg hp]

theorem replaceFrom_before_occurrence (old new p t : GoString)
    (h : ∀ k < p.length, ¬ old <+: (p ++ t).drop k) :
    replaceFrom old new 0 (p ++ t) = p ++ replaceFrom old new 0 t := by
  induction p with
  | nil => rfl
  | cons c cs ih =>
    have h0 : ¬ old <+: c :: (cs ++ t) := h 0 (by simp)
    rw [List.cons_append, replaceFrom_no_occurrence old new c (cs ++ t) h0, ih, List.cons_append]
    intro k hk
    exact h (k + 1) (by simpa using hk)

theorem stringsReplace_unchanged (s old new : GoString)
    (h : ∀ k < s.length, ¬ old <+: s.drop k) : stringsReplace s old new = s := by
  have := replaceFrom_before_occurrence old new s [] (by simpa using h)
  simpa [stringsReplace, replaceFrom] using this

theorem stringsReplace_first (p old rest new : GoString) (hne : old ≠ [])
    (h : ∀ k < p.length, ¬ old <+: (p ++ old).drop k) :
    stringsReplace (p ++ old ++ rest) old new = p ++ new ++ stringsReplace rest old new := by
  unfold stringsReplace
  rw [List.append_assoc, replaceFrom_before_occurrence, replaceFrom_at_occurrence _ _ _ hne,
    List.append_assoc]
  intro k hk hpre
  apply h k hk
  have h1 : (p ++ (old ++ rest)).drop k = (p ++ old).drop k ++ rest := by
    rw [← List.append_assoc, List.drop_append_of_le_length]
    simp; omega
  rw [h1] at hpre
  have h2 : old.length ≤ ((p ++ old).drop k).length := by
    simp only [List.length_drop, List.length_append]
    omega
  exact List.prefix_of_prefix_length_le hpre ⟨rest, rfl⟩ h2

/-! ## The claims -/

/-- C1: with `N` non-discarded columns and `M` new columns, `makeHeader` returns `N + M`
fields, and every row that `processRecord` returns has `N + M` fields, the length of the
header, whatever the record holds and however long it is; `processRecord` returns a row
exactly when every non-discarded `From` is inside the record and every filter and generator
that is named (by a non-discarded column, by a new column) is registered. -/
theorem header_and_row_length (Filters : FilterRegistry) (Generators : GeneratorRegistry)
    (cols : List Column) (new_cols : List NewColumn) :
    (makeHeader cols new_cols).length
        = (cols.filter (fun e => !e.Discard)).length + new_cols.length ∧
      (∀ (record : List GoString) (splitter : GoString) (row : List GoString),
        processRecord Filters Generators record cols new_cols splitter = .ok row →
          row.length = (cols.filter (fun e => !e.Discard)).length + new_cols.length ∧
          row.length = (makeHeader cols new_cols).length) ∧
      (∀ (record : List GoString) (splitter : GoString),
        (∃ row, processRecord Filters Generators record cols new_cols splitter = .ok row) ↔
          ((∀ e ∈ cols, e.Discard = false → 0 ≤ e.From ∧ e.From < record.length) ∧
            (∀ e ∈ cols, e.Discard = false → ∀ f ∈ e.Filters, Filters f ≠ none) ∧
            (∀ g ∈ new_cols, Generators g.Generator ≠ none))) := by
  have hh : (makeHeader cols new_cols).length
      = (cols.filter (fun e => !e.Discard)).length + new_cols.length := by
    rw [makeHeader_eq]
    simp [kept]
  refine ⟨hh, ?_, fun record splitter => processRecord_returns_iff _ _ _ _ _ _⟩
  intro record splitter row h
  obtain ⟨vals, gens, rfl, hv, hg⟩ := (processRecord_ok_iff _ _ _ _ _ _ _).1 h
  have h1 := hv.length_eq
  have h2 := hg.length_eq
  have h3 : (vals ++ gens).length
      = (cols.filter (fun e => !e.Discard)).length + new_cols.length := by
    rw [List.length_append, ← h1, ← h2]
    rfl
  exact ⟨h3, by rw [h3, hh]⟩

/-- Witness of C1: the scenario row has three fields, as many as the header. -/
theorem header_and_row_length_witness :
    processRecord scenarioFilters scenarioGenerators scenarioRecord scenarioColumns
        scenarioNewColumns (str ";")
      = .ok [str "Ada", str "1990", str "Ada;ignored; 1990 "] ∧
    ([str "Ada", str "1990", str "Ada;ignored; 1990 "].length
        = (scenarioColumns.filter (fun e => !e.Discard)).length + scenarioNewColumns.length ∧
      [str "Ada", str "1990", str "Ada;ignored; 1990 "].length
        = (makeHeader scenarioColumns scenarioNewColumns).length) :=
  ⟨by decide,
    (header_and_row_length scenarioFilters scenarioGenerators scenarioColumns
      scenarioNewColumns).2.1 scenarioRecord (str ";") _ (by decide)⟩

/-- C2: `makeHeader` returns the titles of the columns whose `Discard` flag is false, in
declared order, followed by the titles of all new columns, in declared order; it is total
and keeps every title as it is. -/
theorem makeHeader_titles (cols : List Column) (new_cols : List NewColumn) :
    makeHeader cols new_cols
      = (cols.filter (fun e => !e.Discard)).map (fun e => e.Title)
          ++ new_cols.map (fun e => e.Title) :=
  makeHeader_eq cols new_cols

/-- C3: in a row that `processRecord` returns, the value at the position of a non-discarded
column is the left-to-right fold of the registered functions its filter list names, starting
from the field after the `split-by` substitution; two filters `[f1, f2]` give `f2 (f1 v)` and
an empty filter list gives `v`. -/
theorem filters_fold_left (Filters : FilterRegistry) (Generators : GeneratorRegistry) :
    (∀ (record : List GoString) (cols : List Column) (new_cols : List NewColumn)
        (splitter : GoString) (row : List GoString),
        processRecord Filters Generators record cols new_cols splitter = .ok row →
        ∀ (i : Nat) (e : Column), (cols.filter (fun e => !e.Discard))[i]? = some e →
          ∃ (raw : GoString) (fns : List (GoString → GoString)),
            goIndex record e.From = some raw ∧
            e.Filters.map Filters = fns.map some ∧
            row[i]? = some (fns.foldl (fun acc fn => fn acc) (substituted e raw splitter))) ∧
      (∀ (n1 n2 : GoString) (f1 f2 : GoString → GoString) (v : GoString),
        Filters n1 = some f1 → Filters n2 = some f2 →
          filterLoop Filters [n1, n2] v = .ok (f2 (f1 v))) ∧
      (∀ v : GoString, filterLoop Filters [] v = .ok v) := by
  refine ⟨?_, ?_, ?_⟩
  · intro record cols new_cols splitter row h i e he
    obtain ⟨vals, gens, rfl, hv, -⟩ := (processRecord_ok_iff _ _ _ _ _ _ _).1 h
    obtain ⟨v, hvi, raw, hraw, hfl⟩ := forall₂_getElem? hv i e he
    obtain ⟨fns, hm, rfl⟩ := (filterLoop_ok_iff _ _ _ _).1 hfl
    exact ⟨raw, fns, hraw, hm, row_getElem?_column hvi⟩
  · intro n1 n2 f1 f2 v h1 h2
    simp [filterLoop, h1, h2]
  · intro v
    rfl

/-- Witness of C3: the `Year` column of the scenario, and `trim` named twice. -/
theorem filters_fold_left_witness :
    (processRecord scenarioFilters scenarioGenerators scenarioRecord scenarioColumns
        scenarioNewColumns (str ";")
      = .ok [str "Ada", str "1990", str "Ada;ignored; 1990 "] ∧
     (scenarioColumns.filter (fun e => !e.Discard))[1]? = some yearColumn ∧
     ∃ (raw : GoString) (fns : List (GoString → GoString)),
        goIndex scenarioRecord yearColumn.From = some raw ∧
        yearColumn.Filters.map scenarioFilters = fns.map some ∧
        [str "Ada", str "1990", str "Ada;ignored; 1990 "][1]?
          = some (fns.foldl (fun acc fn => fn acc) (substituted yearColumn raw (str ";")))) ∧
    (scenarioFilters (str "trim") = some trim ∧
      filterLoop scenarioFilters [str "trim", str "trim"] (str " x ")
        = .ok (trim (trim (str " x ")))) :=
  ⟨⟨by decide, by decide,
      (filters_fold_left scenarioFilters scenarioGenerators).1 scenarioRecord scenarioColumns
        scenarioNewColumns (str ";") _ (by decide) 1 yearColumn (by decide)⟩,
    ⟨rfl, (filters_fold_left scenarioFilters scenarioGenerators).2.1 (str "trim") (str "trim")
      trim trim (str " x ") rfl rfl⟩⟩

/-- C4: in a row that `processRecord` returns, the filter loop of a non-discarded column
starts from the raw field `record[From]` (with `From` inside the record) when `SplitBy` is
empty and from the raw field with the occurrences of `SplitBy` replaced by the split separator
otherwise, and the value of the column is what the filter loop makes of it (that value itself
when there are no filters).  The replacement of a non-empty `old` handles every occurrence
from the left: up to and including the first occurrence of `old` the text `p ++ old` becomes
`p ++ new` and the rest is treated the same way, and a string without an occurrence is
unchanged; `a|b|c` with `|` replaced by `;` is `a;b;c`. -/
theorem substitution_before_filters (Filters : FilterRegistry)
    (Generators : GeneratorRegistry) :
    (∀ (record : List GoString) (cols : List Column) (new_cols : List NewColumn)
        (splitter : GoString) (row : List GoString),
        processRecord Filters Generators record cols new_cols splitter = .ok row →
        ∀ (i : Nat) (e : Column), (cols.filter (fun e => !e.Discard))[i]? = some e →
          ∃ (raw v : GoString),
            0 ≤ e.From ∧ e.From < record.length ∧
            record[e.From.toNat]? = some raw ∧
            row[i]? = some v ∧
            (e.SplitBy = [] → filterLoop Filters e.Filters raw = .ok v) ∧
            (e.SplitBy ≠ [] →
              filterLoop Filters e.Filters (stringsReplace raw e.SplitBy splitter) = .ok v) ∧
            (e.Filters = [] → e.SplitBy = [] → v = raw) ∧
            (e.Filters = [] → e.SplitBy ≠ [] → v = stringsReplace raw e.SplitBy splitter)) ∧
      (∀ (p old rest new : GoString), old ≠ [] →
        (∀ k < p.length, ¬ old <+: (p ++ old).drop k) →
          stringsReplace (p ++ old ++ rest) old new
            = p ++ new ++ stringsReplace rest old new) ∧
      (∀ (s old new : GoString), old ≠ [] → (∀ k < s.length, ¬ old <+: s.drop k) →
        stringsReplace s old new = s) ∧
      stringsReplace (str "a|b|c") (str "|") (str ";") = str "a;b;c" := by
  refine ⟨?_, fun p old rest new hne h => stringsReplace_first p old rest new hne h,
    fun s old new _ h => stringsReplace_unchanged s old new h, by decide⟩
  intro record cols new_cols splitter row h i e he
  obtain ⟨vals, gens, rfl, hv, -⟩ := (processRecord_ok_iff _ _ _ _ _ _ _).1 h
  obtain ⟨v, hvi, raw, hraw, hfl⟩ := forall₂_getElem? hv i e he
  obtain ⟨h0, hget⟩ := (goIndex_eq_some_iff record e.From raw).1 hraw
  refine ⟨raw, v, h0, (goIndex_some_inRange record e.From raw hraw).2, hget,
    row_getElem?_column hvi, ?_, ?_, ?_, ?_⟩
  · intro hs
    simpa [substituted, hs] using hfl
  · intro hs
    simpa [substituted, hs] using hfl
  · intro hf hs
    simpa [substituted, hs, hf, filterLoop] using hfl.symm
  · intro hf hs
    simpa [substituted, hs, hf, filterLoop] using hfl.symm

/-- Witness of C4: the record `["id-7", " a|b "]` under a column that reads index 1, is split
on `|` and trimmed: the filter loop starts from `" a;b "` and the row is `["a;b"]`. -/
theorem substitution_before_filters_witness :
    (processRecord scenarioFilters scenarioGenerators tagsRecord [tagsColumn] [] (str ";")
        = .ok [str "a;b"] ∧
      [tagsColumn].filter (fun e => !e.Discard) = [tagsColumn] ∧
      tagsColumn.From = 1 ∧
      tagsRecord[1]? = some (str " a|b ") ∧
      stringsReplace (str " a|b ") tagsColumn.SplitBy (str ";") = str " a;b " ∧
      ∃ (raw v : GoString),
        0 ≤ tagsColumn.From ∧ tagsColumn.From < tagsRecord.length ∧
        tagsRecord[tagsColumn.From.toNat]? = some raw ∧
        [str "a;b"][0]? = some v ∧
        (tagsColumn.SplitBy = [] → filterLoop scenarioFilters tagsColumn.Filters raw = .ok v) ∧
        (tagsColumn.SplitBy ≠ [] →
          filterLoop scenarioFilters tagsColumn.Filters
            (stringsReplace raw tagsColumn.SplitBy (str ";")) = .ok v) ∧
        (tagsColumn.Filters = [] → tagsColumn.SplitBy = [] → v = raw) ∧
        (tagsColumn.Filters = [] → tagsColumn.SplitBy ≠ [] →
          v = stringsReplace raw tagsColumn.SplitBy (str ";"))) ∧
    (str "|" ≠ [] ∧ (∀ k < (str "a").length, ¬ str "|" <+: (str "a" ++ str "|").drop k) ∧
      stringsReplace (str "a" ++ str "|" ++ str "b|c") (str "|") (str ";")
        = str "a" ++ str ";" ++ stringsReplace (str "b|c") (str "|") (str ";")) ∧
    ((∀ k < (str "c").length, ¬ str "|" <+: (str "c").drop k) ∧
      stringsReplace (str "c") (str "|") (str ";") = str "c") :=
  ⟨⟨by decide, by decide, by decide, by decide, by decide,
      (substitution_before_filters scenarioFilters scenarioGenerators).1 tagsRecord
        [tagsColumn] [] (str ";") _ (by decide) 0 tagsColumn (by decide)⟩,
    ⟨by decide, by decide,
      (substitution_before_filters scenarioFilters scenarioGenerators).2.1 (str "a") (str "|")
        (str "b|c") (str ";") (by decide) (by decide)⟩,
    ⟨by decide,
      (substitution_before_filters scenarioFilters scenarioGenerators).2.2.1 (str "c")
        (str "|") (str ";") (by decide) (by decide)⟩⟩

/-- C5: in a row that `processRecord` returns, the field at position `N + j` (`N` the number
of non-discarded columns) is the registered generator of the `j`-th new column applied to the
record as it was passed in; another column list and split separator give the same field. -/
theorem generators_get_original_record (Filters : FilterRegistry)
    (Generators : GeneratorRegistry) (record : List GoString) (cols : List Column)
    (new_cols : List NewColumn) (splitter : GoString) (row : List GoString)
    (h : processRecord Filters Generators record cols new_cols splitter = .ok row)
    (j : Nat) (g : NewColumn) (hg : new_cols[j]? = some g) :
    (∃ fn, Generators g.Generator = some fn ∧
        row[(cols.filter (fun e => !e.Discard)).length + j]? = some (fn record)) ∧
      ∀ (cols2 : List Column) (splitter2 : GoString) (row2 : List GoString),
        processRecord Filters Generators record cols2 new_cols splitter2 = .ok row2 →
          row2[(cols2.filter (fun e => !e.Discard)).length + j]?
            = row[(cols.filter (fun e => !e.Discard)).length + j]? := by
  have key : ∀ (cols : List Column) (splitter : GoString) (row : List GoString),
      processRecord Filters Generators record cols new_cols splitter = .ok row →
      ∃ fn, Generators g.Generator = some fn ∧
        row[(cols.filter (fun e => !e.Discard)).length + j]? = some (fn record) := by
    intro cols splitter row h
    obtain ⟨vals, gens, rfl, hv, hgen⟩ := (processRecord_ok_iff _ _ _ _ _ _ _).1 h
    obtain ⟨v, hvj, fn, hfn, rfl⟩ := forall₂_getElem? hgen j g hg
    refine ⟨fn, hfn, ?_⟩
    have hlen : vals.length = (cols.filter (fun e => !e.Discard)).length :=
      hv.length_eq.symm
    rw [row_getElem?_generated hlen]
    exact hvj
  obtain ⟨fn, hfn, hrow⟩ := key cols splitter row h
  refine ⟨⟨fn, hfn, hrow⟩, ?_⟩
  intro cols2 splitter2 row2 h2
  obtain ⟨fn2, hfn2, hrow2⟩ := key cols2 splitter2 row2 h2
  rw [hfn, Option.some.injEq] at hfn2
  subst hfn2
  rw [hrow, hrow2]

/-- Witness of C5: the `Full` column of the scenario. -/
theorem generators_get_original_record_witness :
    processRecord scenarioFilters scenarioGenerators scenarioRecord scenarioColumns
        scenarioNewColumns (str ";")
      = .ok [str "Ada", str "1990", str "Ada;ignored; 1990 "] ∧
    scenarioNewColumns[0]? = some fullColumn ∧
    ∃ fn, scenarioGenerators fullColumn.Generator = some fn ∧
      [str "Ada", str "1990", str "Ada;ignored; 1990 "][
          (scenarioColumns.filter (fun e => !e.Discard)).length + 0]?
        = some (fn scenarioRecord) :=
  ⟨by decide, by decide,
    (generators_get_original_record scenarioFilters scenarioGenerators scenarioRecord
      scenarioColumns scenarioNewColumns (str ";") _ (by decide) 0 fullColumn (by decide)).1⟩

/-- C6: `processRecord` gives the same result on a column list and on that list with the
discarded columns removed; a discarded column alone yields the empty row, whatever its
`From` and its filter names are. -/
theorem discarded_columns_skipped (Filters : FilterRegistry)
    (Generators : GeneratorRegistry) (record : List GoString) (cols : List Column)
    (new_cols : List NewColumn) (splitter : GoString) :
    processRecord Filters Generators record cols new_cols splitter
        = processRecord Filters Generators record (cols.filter (fun e => !e.Discard))
            new_cols splitter ∧
      ∀ e : Column, e.Discard = true →
        processRecord Filters Generators record [e] [] splitter = .ok [] := by
  constructor
  · unfold processRecord
    rw [columnLoop_kept]
    rfl
  · intro e he
    simp [processRecord, columnLoop, generatorLoop, he]

/-- Witness of C6: a discarded column with `From = 7` and an unregistered filter, on the
scenario record of three fields. -/
theorem discarded_columns_skipped_witness :
    strayColumn.Discard = true ∧
      goIndex scenarioRecord strayColumn.From = none ∧
      scenarioFilters (str "nosuch") = none ∧
      processRecord scenarioFilters scenarioGenerators scenarioRecord [strayColumn] []
          (str ";") = .ok [] :=
  ⟨rfl, by decide, rfl,
    (discarded_columns_skipped scenarioFilters scenarioGenerators scenarioRecord
      scenarioColumns scenarioNewColumns (str ";")).2 strayColumn rfl⟩

/-- Counterexample to C7: whatever the split separator, the row of the scenario is not
`["Ada", "1990", "Ada;ignored;1990"]`. -/
theorem scenario_row_not_as_claimed :
    ¬ ∃ splitter : GoString,
      makeHeader scenarioColumns scenarioNewColumns = [str "Name", str "Year", str "Full"] ∧
      processRecord scenarioFilters scenarioGenerators scenarioRecord scenarioColumns
          scenarioNewColumns splitter
        = .ok [str "Ada", str "1990", str "Ada;ignored;1990"] := by
  rintro ⟨splitter, -, h⟩
  rw [scenario_row splitter] at h
  revert h
  decide

/-- C7 (amended): in the scenario `makeHeader` returns `["Name", "Year", "Full"]` and
`processRecord` returns `["Ada", "1990", "Ada;ignored; 1990 "]`: `joinAll` is applied to the
record as it was read, in which the third field still has its spaces. -/
theorem scenario_header_and_row (splitter : GoString) :
    makeHeader scenarioColumns scenarioNewColumns = [str "Name", str "Year", str "Full"] ∧
      processRecord scenarioFilters scenarioGenerators scenarioRecord scenarioColumns
          scenarioNewColumns splitter
        = .ok [str "Ada", str "1990", str "Ada;ignored; 1990 "] :=
  ⟨by decide, scenario_row splitter⟩

/-- C8: when every non-discarded column has its `From` inside the record, `processRecord`
ends without a row exactly when a non-discarded column names a filter that is not registered
or a new column names a generator that is not registered; it then ends by `os.Exit(1)`, and
otherwise it returns a row. -/
theorem abort_iff_unknown_name (Filters : FilterRegistry) (Generators : GeneratorRegistry)
    (record : List GoString) (cols : List Column) (new_cols : List NewColumn)
    (splitter : GoString)
    (hin : ∀ e ∈ cols, e.Discard = false → 0 ≤ e.From ∧ e.From < record.length) :
    ((∃ a, processRecord Filters Generators record cols new_cols splitter = .error a) ↔
        ((∃ e ∈ cols, e.Discard = false ∧ ∃ f ∈ e.Filters, Filters f = none) ∨
          (∃ g ∈ new_cols, Generators g.Generator = none))) ∧
      (∀ a, processRecord Filters Generators record cols new_cols splitter = .error a →
        a.exitStatus = 1) ∧
      (¬ ((∃ e ∈ cols, e.Discard = false ∧ ∃ f ∈ e.Filters, Filters f = none) ∨
          (∃ g ∈ new_cols, Generators g.Generator = none)) →
        ∃ row, processRecord Filters Generators record cols new_cols splitter = .ok row) := by
  have herr : ∀ a, processRecord Filters Generators record cols new_cols splitter = .error a →
      a.exitStatus = 1 ∧
        ((∃ e ∈ cols, e.Discard = false ∧ ∃ f ∈ e.Filters, Filters f = none) ∨
          (∃ g ∈ new_cols, Generators g.Generator = none)) := by
    intro a ha
    rcases processRecord_error _ _ _ _ _ _ _ ha with ⟨e, he, hi, -⟩ | ⟨e, he, f, hf, hn, rfl⟩ |
      ⟨g, hg, hn, rfl⟩
    · obtain ⟨hm, hd⟩ := mem_kept he
      obtain ⟨h0, h1⟩ := hin e hm hd
      obtain ⟨raw, hraw⟩ := goIndex_inRange record e.From h0 h1
      rw [hi] at hraw
      cases hraw
    · obtain ⟨hm, hd⟩ := mem_kept he
      exact ⟨rfl, Or.inl ⟨e, hm, hd, f, hf, hn⟩⟩
    · exact ⟨rfl, Or.inr ⟨g, hg, hn⟩⟩
  refine ⟨⟨?_, ?_⟩, fun a ha => (herr a ha).1, ?_⟩
  · rintro ⟨a, ha⟩
    exact (herr a ha).2
  · intro hU
    exact processRecord_unknown_aborts _ _ _ _ _ _ hU
  · intro hU
    cases hp : processRecord Filters Generators record cols new_cols splitter with
    | error a => exact absurd (herr a hp).2 hU
    | ok row => exact ⟨row, rfl⟩

/-- Witness of C8: the scenario, whose three fields cover the indices 0 and 2. -/
theorem abort_iff_unknown_name_witness :
    (∀ e ∈ scenarioColumns, e.Discard = false →
        0 ≤ e.From ∧ e.From < (scenarioRecord.length : Int)) ∧
    (((∃ a, processRecord scenarioFilters scenarioGenerators scenarioRecord scenarioColumns
          scenarioNewColumns (str ";") = .error a) ↔
        ((∃ e ∈ scenarioColumns, e.Discard = false ∧
            ∃ f ∈ e.Filters, scenarioFilters f = none) ∨
          (∃ g ∈ scenarioNewColumns, scenarioGenerators g.Generator = none))) ∧
      (∀ a, processRecord scenarioFilters scenarioGenerators scenarioRecord scenarioColumns
          scenarioNewColumns (str ";") = .error a → a.exitStatus = 1) ∧
      (¬ ((∃ e ∈ scenarioColumns, e.Discard = false ∧
            ∃ f ∈ e.Filters, scenarioFilters f = none) ∨
          (∃ g ∈ scenarioNewColumns, scenarioGenerators g.Generator = none)) →
        ∃ row, processRecord scenarioFilters scenarioGenerators scenarioRecord
          scenarioColumns scenarioNewColumns (str ";") = .ok row)) :=
  ⟨by decide,
    abort_iff_unknown_name scenarioFilters scenarioGenerators scenarioRecord scenarioColumns
      scenarioNewColumns (str ";") (by decide)⟩

/-- Counterexample to C9: the only column names a filter that is not registered, the input
holds no record, and the run writes the header and ends with exit status 0. -/
theorem unknown_name_empty_input_exits_zero :
    (∃ e ∈ unknownFilterConfig.Columns, e.Discard = false ∧
        ∃ f ∈ e.Filters, scenarioFilters f = none) ∧
      main scenarioFilters scenarioGenerators (csvGiving []) unknownFilterConfig
        = ⟨[[str "Name"]], 0, true⟩ := by
  refine ⟨⟨_, List.mem_singleton.2 rfl, rfl, str "nosuch", List.mem_singleton.2 rfl, ?_⟩, ?_⟩
  · rfl
  · decide

/-- C9 (amended): when a non-discarded column names a filter that is not registered or a new
column names a generator that is not registered, and the input holds at least one record,
the run ends with a non-zero exit status before `w.Flush()`; the rows the writer accepted are
an initial part of the header followed by the transformed records in input order, and at most
the header.  When the input holds no record the names are never looked up: the run writes
the header, flushes and ends with status 0 if the writer accepts the header, and ends with
status 1 and nothing written if it does not. -/
theorem unknown_name_aborts_run (Filters : FilterRegistry) (Generators : GeneratorRegistry)
    (csv : Csv) (conf : config) (rComma wComma : Nat) (records : List (List GoString))
    (hU : (∃ e ∈ conf.Columns, e.Discard = false ∧ ∃ f ∈ e.Filters, Filters f = none) ∨
      (∃ g ∈ conf.NewColumns, Generators g.Generator = none))
    (hc : firstByteRune (setDefaults conf).InputSeparator = some rComma)
    (hcw : firstByteRune (setDefaults conf).OutputSeparator = some wComma)
    (hread : csv.readAll rComma = some records) :
    (records ≠ [] →
      (main Filters Generators csv conf).status ≠ 0 ∧
        (main Filters Generators csv conf).flushed = false ∧
        (main Filters Generators csv conf).written <+:
          makeHeader conf.Columns conf.NewColumns ::
            records.filterMap (fun e =>
              (processRecord Filters Generators e conf.Columns conf.NewColumns
                (setDefaults conf).SplitSeparator).toOption) ∧
        (main Filters Generators csv conf).written.length ≤ 1) ∧
      (records = [] →
        (csv.write wComma [] (makeHeader conf.Columns conf.NewColumns) = true →
          main Filters Generators csv conf
            = ⟨[makeHeader conf.Columns conf.NewColumns], 0, true⟩) ∧
        (csv.write wComma [] (makeHeader conf.Columns conf.NewColumns) = false →
          main Filters Generators csv conf = ⟨[], 1, false⟩)) := by
  obtain ⟨w2, hw2, hmain⟩ :=
    main_after_read Filters Generators csv conf rComma records hc hread
  rw [hcw, Option.some.injEq] at hw2
  subst hw2
  rw [hmain]
  constructor
  · intro hne
    cases records with
    | nil => exact absurd rfl hne
    | cons r rs =>
      cases hw : csv.write wComma [] (makeHeader conf.Columns conf.NewColumns) with
      | false =>
        refine ⟨by simp, by simp, ⟨_, rfl⟩, by simp⟩
      | true =>
        obtain ⟨a, ha⟩ := processRecord_unknown_aborts Filters Generators r conf.Columns
          conf.NewColumns (setDefaults conf).SplitSeparator hU
        have hl : recordLoop Filters Generators (csv.write wComma) (setDefaults conf)
            (r :: rs) [makeHeader conf.Columns conf.NewColumns]
            = ⟨[makeHeader conf.Columns conf.NewColumns], a.exitStatus, false⟩ := by
          unfold recordLoop
          rw [setDefaults_Columns, setDefaults_NewColumns, ha]
        simp only [if_true, hl]
        exact ⟨exitStatus_ne_zero a, trivial, ⟨_, rfl⟩, by simp⟩
  · intro hnil
    subst hnil
    constructor
    · intro hw
      rw [if_pos hw]
      rfl
    · intro hw
      simp [hw]

/-- Witness of C9: the configuration with the unknown filter, run on the scenario record
(status 1, only the header accepted, no flush) and on an empty input (header written,
status 0). -/
theorem unknown_name_aborts_run_witness :
    main scenarioFilters scenarioGenerators (csvGiving [scenarioRecord]) unknownFilterConfig
        = ⟨[[str "Name"]], 1, false⟩ ∧
      ((main scenarioFilters scenarioGenerators (csvGiving [scenarioRecord])
          unknownFilterConfig).status ≠ 0 ∧
        (main scenarioFilters scenarioGenerators (csvGiving [scenarioRecord])
          unknownFilterConfig).flushed = false ∧
        (main scenarioFilters scenarioGenerators (csvGiving [scenarioRecord])
          unknownFilterConfig).written <+:
          makeHeader unknownFilterConfig.Columns unknownFilterConfig.NewColumns ::
            [scenarioRecord].filterMap (fun e =>
              (processRecord scenarioFilters scenarioGenerators e unknownFilterConfig.Columns
                unknownFilterConfig.NewColumns
                (setDefaults unknownFilterConfig).SplitSeparator).toOption) ∧
        (main scenarioFilters scenarioGenerators (csvGiving [scenarioRecord])
          unknownFilterConfig).written.length ≤ 1) ∧
      main scenarioFilters scenarioGenerators (csvGiving []) unknownFilterConfig
        = ⟨[makeHeader unknownFilterConfig.Columns unknownFilterConfig.NewColumns], 0, true⟩ :=
  ⟨by decide,
    (unknown_name_aborts_run scenarioFilters scenarioGenerators (csvGiving [scenarioRecord])
      unknownFilterConfig 59 59 [scenarioRecord]
      (Or.inl ⟨_, List.mem_singleton.2 rfl, rfl, str "nosuch", List.mem_singleton.2 rfl, rfl⟩)
      (by decide) (by decide) rfl).1 (by decide),
    ((unknown_name_aborts_run scenarioFilters scenarioGenerators (csvGiving [])
      unknownFilterConfig 59 59 []
      (Or.inl ⟨_, List.mem_singleton.2 rfl, rfl, str "nosuch", List.mem_singleton.2 rfl, rfl⟩)
      (by decide) (by decide) rfl).2 rfl).1 rfl⟩

/-- Counterexample to C10: with `split-separator` set to `", "` the string that
`processRecord` substitutes has two characters; the field `a|b` becomes `a, b`. -/
theorem split_separator_two_characters :
    (setDefaults wideSplitConfig).SplitSeparator = str ", " ∧
      (setDefaults wideSplitConfig).SplitSeparator.length = 2 ∧
      main scenarioFilters scenarioGenerators (csvGiving [[str "a|b"]]) wideSplitConfig
        = ⟨[[str "Tags"], [str "a, b"]], 0, true⟩ := by
  decide

/-- C10 (amended): the run takes the reader delimiter from the defaulted input separator
and the writer delimiter from the defaulted output separator, and taking them never fails;
when the configured string is empty or starts with an ASCII character the delimiter is one
ASCII character, `;` for an empty string and its first character otherwise.  The reader is
called with the first and every write with the second: a read error, or a rejected header,
ends the run with status 1 and nothing written.  The split separator handed to
`processRecord` is the whole configured string, or `;` when that is empty, so it is never
empty: when the writer accepts every row and every record is transformed with that string,
the run writes the header and those rows. -/
theorem run_separators (Filters : FilterRegistry) (Generators : GeneratorRegistry)
    (csv : Csv) (conf : config) :
    ∃ (r w : Nat) (S : GoString),
      firstByteRune (setDefaults conf).InputSeparator = some r ∧
      firstByteRune (setDefaults conf).OutputSeparator = some w ∧
      (startsAscii conf.InputSeparator = true →
        r < 128 ∧ r = (match conf.InputSeparator with
          | [] => 59
          | b :: _ => b.toNat)) ∧
      (startsAscii conf.OutputSeparator = true →
        w < 128 ∧ w = (match conf.OutputSeparator with
          | [] => 59
          | b :: _ => b.toNat)) ∧
      S = (if conf.SplitSeparator = [] then str ";" else conf.SplitSeparator) ∧
      S ≠ [] ∧
      (csv.readAll r = none → main Filters Generators csv conf = ⟨[], 1, false⟩) ∧
      (∀ records, csv.readAll r = some records →
        (csv.write w [] (makeHeader conf.Columns conf.NewColumns) = false →
          main Filters Generators csv conf = ⟨[], 1, false⟩) ∧
        (∀ rows, (∀ written row, csv.write w written row = true) →
          List.Forall₂ (fun e row =>
            processRecord Filters Generators e conf.Columns conf.NewColumns S = .ok row)
            records rows →
          main Filters Generators csv conf
            = ⟨makeHeader conf.Columns conf.NewColumns :: rows, 0, true⟩)) := by
  obtain ⟨r, w, hr, hw, hmain⟩ := main_eq Filters Generators csv conf
  have hS : (setDefaults conf).SplitSeparator
      = (if conf.SplitSeparator = [] then str ";" else conf.SplitSeparator) := rfl
  refine ⟨r, w, (setDefaults conf).SplitSeparator, hr, hw, ?_, ?_, hS, ?_, ?_, ?_⟩
  · intro hs
    rw [setDefaults_InputSeparator] at hr
    exact firstByteRune_startsAscii _ r hr hs
  · intro hs
    rw [setDefaults_OutputSeparator] at hw
    exact firstByteRune_startsAscii _ w hw hs
  · rw [hS]
    split_ifs with h
    · decide
    · exact h
  · intro hnone
    rw [hmain, hnone]
  · intro records hread
    rw [hmain, hread]
    constructor
    · intro hf
      simp [hf]
    · intro rows hacc hrows
      simp only [hacc, if_true]
      have h2 : List.Forall₂ (fun e row =>
          processRecord Filters Generators e (setDefaults conf).Columns
            (setDefaults conf).NewColumns (setDefaults conf).SplitSeparator = .ok row)
          records rows := hrows
      rw [recordLoop_all_ok Filters Generators (csv.write w) (setDefaults conf) records rows
        _ (hacc) h2]
      rfl

/-- Witness of C10: input separator `,`, no output separator, split separator `", "`, with
a reader that works only for the delimiter `,` (44) and a writer that works only for `;`
(59): the run reads the record and writes the header and the row `["a, b"]`.  Without any
configured separator, and a reader and writer that work only for `;`, the row is
`["a;b"]`. -/
theorem run_separators_witness :
    (startsAscii wideSplitConfig.InputSeparator = true ∧
      startsAscii wideSplitConfig.OutputSeparator = true ∧
      (csvStrict 44 59 [[str "a|b"]]).readAll 44 = some [[str "a|b"]] ∧
      (∀ written row, (csvStrict 44 59 [[str "a|b"]]).write 59 written row = true) ∧
      processRecord scenarioFilters scenarioGenerators [str "a|b"] wideSplitConfig.Columns
        wideSplitConfig.NewColumns (str ", ") = .ok [str "a, b"] ∧
      main scenarioFilters scenarioGenerators (csvStrict 44 59 [[str "a|b"]]) wideSplitConfig
        = ⟨[makeHeader wideSplitConfig.Columns wideSplitConfig.NewColumns, [str "a, b"]],
            0, true⟩) ∧
    main scenarioFilters scenarioGenerators (csvStrict 44 59 [[str "a|b"]]) wideSplitConfig
      = ⟨[[str "Tags"], [str "a, b"]], 0, true⟩ ∧
    main scenarioFilters scenarioGenerators (csvStrict 59 59 [[str "a|b"]])
        defaultSeparatorsConfig
      = ⟨[[str "Tags"], [str "a;b"]], 0, true⟩ ∧
    main scenarioFilters scenarioGenerators (csvStrict 59 44 [[str "a|b"]]) wideSplitConfig
      = ⟨[], 1, false⟩ := by
  obtain ⟨r, w, S, -, -, hri, hwi, hS, -, -, hsome⟩ :=
    run_separators scenarioFilters scenarioGenerators (csvStrict 44 59 [[str "a|b"]])
      wideSplitConfig
  have hr : r = 44 := (hri (by decide)).2
  have hw : w = 59 := (hwi (by decide)).2
  have hS2 : S = str ", " := hS
  subst hr
  subst hw
  subst hS2
  exact ⟨⟨by decide, by decide, rfl, fun _ _ => rfl, by decide,
    (hsome [[str "a|b"]] rfl).2 [[str "a, b"]] (fun _ _ => rfl)
      (List.Forall₂.cons (by decide) List.Forall₂.nil)⟩, by decide, by decide, by decide⟩

end PrepareCsv
